import Mathlib

/-!
Verification development for the caption-reference matching engine of the
Interpretation_of_ChartCutting repository (src/caption_extractor.py and
src/dto.py).

The Python code is shallowly embedded:
* Python strings are modelled as `List Char` (Python indexes/slices strings by
  code point, which coincides with `List Char` positions).
* Python floats are modelled as `ℚ` (the scoring arithmetic is read as exact
  real-number arithmetic; all constants are decimal literals).
* The regular-expression patterns of `CaptionPatterns` are modelled by a small
  backtracking matcher (`Re`, `matchList`, `finditer`) that implements the
  Python `re` semantics for exactly the constructs those patterns use:
  ordered alternation, case-insensitive literals, character classes, greedy
  `*`/`+` over classes, lazy `+?` over classes, optional groups, capture
  groups, zero-width lookahead `(?=...)`, and MULTILINE `$`.
-/

/-- Characters matched by the regex class `\s` and stripped by Python
`str.strip()` (ASCII whitespace plus the ideographic space, the only
whitespace code points relevant to the embedded patterns). -/
def isSpaceCh (c : Char) : Bool :=
  c == ' ' || c == '\t' || c == '\n' || c == '\r' || c == '\x0b' ||
    c == '\x0c' || c == '　'

/-- Characters matched by the regex class `\d` (ASCII digits). -/
def isDigitCh (c : Char) : Bool :=
  '0' ≤ c && c ≤ '9'

/-- Characters of the regex class `[：:：]` (full-width and ASCII colon). -/
def isColonCh (c : Char) : Bool :=
  c == '：' || c == ':'

/-- Characters of the regex class `[.-]`. -/
def isSepCh (c : Char) : Bool :=
  c == '.' || c == '-'

/-- Characters matched by `.` outside DOTALL mode: anything but a newline. -/
def isDotCh (c : Char) : Bool :=
  c != '\n'

/-- Python `str.strip()`: remove leading and trailing whitespace. -/
def pyStrip (s : List Char) : List Char :=
  ((s.dropWhile isSpaceCh).reverse.dropWhile isSpaceCh).reverse

/-- Python `str.lower()` restricted to the code points that occur in the
embedded patterns and inputs (ASCII letters are lowered, everything else is
unchanged — identical to Python for these code points). -/
def pyLower (s : List Char) : List Char :=
  s.map Char.toLower

/-- Does `a` occur at the start of `b` (exact, case-sensitive)? -/
def startsWithChars : List Char → List Char → Bool
  | [], _ => true
  | _ :: _, [] => false
  | a :: as, b :: bs => a == b && startsWithChars as bs

/-- Python `a in b` on strings: `a` is a contiguous substring of `b`. -/
def isSubstr (a : List Char) : List Char → Bool
  | [] => startsWithChars a []
  | b :: bs => startsWithChars a (b :: bs) || isSubstr a bs

/-- Regular-expression abstract syntax, covering exactly the constructs used
by `CaptionPatterns` in src/caption_extractor.py. -/
inductive Re where
  /-- empty pattern -/
  | eps : Re
  /-- literal string, matched case-insensitively (the patterns are compiled
  with `re.IGNORECASE`) -/
  | lit : List Char → Re
  /-- single character from a class -/
  | cls : (Char → Bool) → Re
  /-- concatenation -/
  | seq : Re → Re → Re
  /-- ordered alternation (left alternative tried first) -/
  | alt : Re → Re → Re
  /-- greedy option `(...)?` -/
  | opt : Re → Re
  /-- greedy `c*` over a character class -/
  | star : (Char → Bool) → Re
  /-- greedy `c+` over a character class -/
  | plus : (Char → Bool) → Re
  /-- lazy `c+?` over a character class (used for `(.+?)`) -/
  | lazyPlus : (Char → Bool) → Re
  /-- numbered capture group -/
  | grp : Nat → Re → Re
  /-- zero-width lookahead `(?=...)` -/
  | look : Re → Re
  /-- `$` under `re.MULTILINE`: end of text or just before a newline -/
  | eol : Re

/-- Captured groups: association list from group number to captured text;
the most recent capture for a group is listed first. -/
abbrev Caps := List (Nat × List Char)

/-- Match a case-insensitive literal at the front of the input, returning the
rest of the input. -/
def stripLitCI : List Char → List Char → Option (List Char)
  | [], s => some s
  | _ :: _, [] => none
  | w :: ws, ch :: rest =>
    if w.toLower == ch.toLower then stripLitCI ws rest else none

/-- All ways a pattern can match a prefix of `s`, in backtracking priority
order (the order Python's `re` explores them); each result is the remaining
suffix together with the captures made so far. The overall match chosen by
`re` is the first element. -/
def matchList : Re → List Char → Caps → List (List Char × Caps)
  | .eps, s, c => [(s, c)]
  | .lit w, s, c =>
    match stripLitCI w s with
    | some s' => [(s', c)]
    | none => []
  | .cls f, s, c =>
    match s with
    | [] => []
    | ch :: rest => if f ch then [(rest, c)] else []
  | .seq a b, s, c => (matchList a s c).flatMap (fun p => matchList b p.1 p.2)
  | .alt a b, s, c => matchList a s c ++ matchList b s c
  | .opt a, s, c => matchList a s c ++ [(s, c)]
  | .star f, s, c =>
    let n := (s.takeWhile f).length
    (List.range (n + 1)).map (fun k => (s.drop (n - k), c))
  | .plus f, s, c =>
    let n := (s.takeWhile f).length
    (List.range n).map (fun k => (s.drop (n - k), c))
  | .lazyPlus f, s, c =>
    let n := (s.takeWhile f).length
    (List.range n).map (fun k => (s.drop (k + 1), c))
  | .grp i a, s, c =>
    (matchList a s c).map (fun p => (p.1, (i, s.take (s.length - p.1.length)) :: p.2))
  | .look a, s, c => if (matchList a s c).isEmpty then [] else [(s, c)]
  | .eol, s, c =>
    match s with
    | [] => [(s, c)]
    | ch :: _ => if ch == '\n' then [(s, c)] else []

/-- The result of one `re.finditer` match: `match.start()`, `match.end()`,
`match.group(0)` and the numbered captures. -/
structure PyMatch where
  start : Nat
  stop : Nat
  group0 : List Char
  caps : Caps
deriving Repr, DecidableEq

/-- `match.group(i)`: `none` models Python `None` (group did not take part
in the match). -/
def PyMatch.group (m : PyMatch) (i : Nat) : Option (List Char) :=
  (m.caps.find? (fun p => p.1 == i)).map (·.2)

/-- Scanning worker for `finditer`: try a match at each position, and after a
successful match continue right after it (Python advances one position past an
empty match). The fuel argument is only a termination device; it is always
called with more fuel than the input length, so the fuel never runs out. -/
def finditerAux (r : Re) : Nat → List Char → Nat → List PyMatch
  | 0, _, _ => []
  | _ + 1, [], pos =>
    match (matchList r [] []).head? with
    | some (_, caps) => [{ start := pos, stop := pos, group0 := [], caps := caps }]
    | none => []
  | fuel + 1, s@(_ :: rest), pos =>
    match (matchList r s []).head? with
    | none => finditerAux r fuel rest (pos + 1)
    | some (suffix, caps) =>
      let len := s.length - suffix.length
      if len = 0 then
        { start := pos, stop := pos, group0 := [], caps := caps } ::
          finditerAux r fuel rest (pos + 1)
      else
        { start := pos, stop := pos + len, group0 := s.take len, caps := caps } ::
          finditerAux r fuel (s.drop len) (pos + len)

/-- `re.finditer(pattern, s)`: all non-overlapping matches, scanning left to
right. -/
def finditer (r : Re) (s : List Char) : List PyMatch :=
  finditerAux r (s.length + 1) s 0

/-- Concatenate a list of patterns. -/
def rcat (l : List Re) : Re :=
  l.foldr Re.seq Re.eps

/-- Ordered alternation of a nonempty list of patterns. -/
def ralts : Re → List Re → Re
  | r, [] => r
  | r, x :: xs => Re.alt r (ralts x xs)

/-- Literal pattern from a string. -/
def rlit (s : String) : Re :=
  Re.lit s.toList

/-!
## Pattern Library (`CaptionPatterns` in src/caption_extractor.py)

Each pattern below is the direct transcription of one regex string; the
original regex is quoted in the doc comment. All patterns are compiled with
`re.IGNORECASE | re.MULTILINE`.
-/

/-- `(?:圖|表|圖表)[\s]*(\d+)(?:\.(\d+))?[\s]*[：:：]\s*(.+?)(?=\n|$)` -/
def captionPat0 : Re :=
  rcat [ralts (rlit "圖") [rlit "表", rlit "圖表"],
        Re.star isSpaceCh,
        Re.grp 1 (Re.plus isDigitCh),
        Re.opt (rcat [rlit ".", Re.grp 2 (Re.plus isDigitCh)]),
        Re.star isSpaceCh,
        Re.cls isColonCh,
        Re.star isSpaceCh,
        Re.grp 3 (Re.lazyPlus isDotCh),
        Re.look (Re.alt (rlit "\n") Re.eol)]

/-- `(?:圖|表|圖表)[\s]*(\d+)(?:[.-](\d+))?[\s]*[：:：]\s*(.+?)(?=\n|$)` -/
def captionPat1 : Re :=
  rcat [ralts (rlit "圖") [rlit "表", rlit "圖表"],
        Re.star isSpaceCh,
        Re.grp 1 (Re.plus isDigitCh),
        Re.opt (rcat [Re.cls isSepCh, Re.grp 2 (Re.plus isDigitCh)]),
        Re.star isSpaceCh,
        Re.cls isColonCh,
        Re.star isSpaceCh,
        Re.grp 3 (Re.lazyPlus isDotCh),
        Re.look (Re.alt (rlit "\n") Re.eol)]

/-- `(?:Figure|Table|Fig\.|Tab\.)[\s]*(\d+)(?:\.(\d+))?[\s]*[：:：]?\s*(.+?)(?=\n|$)` -/
def captionPat2 : Re :=
  rcat [ralts (rlit "Figure") [rlit "Table", rlit "Fig.", rlit "Tab."],
        Re.star isSpaceCh,
        Re.grp 1 (Re.plus isDigitCh),
        Re.opt (rcat [rlit ".", Re.grp 2 (Re.plus isDigitCh)]),
        Re.star isSpaceCh,
        Re.opt (Re.cls isColonCh),
        Re.star isSpaceCh,
        Re.grp 3 (Re.lazyPlus isDotCh),
        Re.look (Re.alt (rlit "\n") Re.eol)]

/-- `(?:圖片|表格|圖像)[\s]*(\d+)(?:[.-](\d+))?[\s]*[：:：]\s*(.+?)(?=\n|$)` -/
def captionPat3 : Re :=
  rcat [ralts (rlit "圖片") [rlit "表格", rlit "圖像"],
        Re.star isSpaceCh,
        Re.grp 1 (Re.plus isDigitCh),
        Re.opt (rcat [Re.cls isSepCh, Re.grp 2 (Re.plus isDigitCh)]),
        Re.star isSpaceCh,
        Re.cls isColonCh,
        Re.star isSpaceCh,
        Re.grp 3 (Re.lazyPlus isDotCh),
        Re.look (Re.alt (rlit "\n") Re.eol)]

/-- `(?:圖|表)[\s]*(\d+)(?:[.-](\d+))?[\s]+(.+?)(?=(?:\n|$|圖|表|\d))` -/
def captionPat4 : Re :=
  rcat [ralts (rlit "圖") [rlit "表"],
        Re.star isSpaceCh,
        Re.grp 1 (Re.plus isDigitCh),
        Re.opt (rcat [Re.cls isSepCh, Re.grp 2 (Re.plus isDigitCh)]),
        Re.plus isSpaceCh,
        Re.grp 3 (Re.lazyPlus isDotCh),
        Re.look (ralts (rlit "\n") [Re.eol, rlit "圖", rlit "表", Re.cls isDigitCh])]

/-- `(?:Figure|Table|Fig\.|Tab\.)[\s]*(\d+)(?:\.(\d+))?[\s]*[：:：.]?\s*(.+?)(?=\n|$)` -/
def captionPat5 : Re :=
  rcat [ralts (rlit "Figure") [rlit "Table", rlit "Fig.", rlit "Tab."],
        Re.star isSpaceCh,
        Re.grp 1 (Re.plus isDigitCh),
        Re.opt (rcat [rlit ".", Re.grp 2 (Re.plus isDigitCh)]),
        Re.star isSpaceCh,
        Re.opt (Re.cls (fun c => isColonCh c || c == '.')),
        Re.star isSpaceCh,
        Re.grp 3 (Re.lazyPlus isDotCh),
        Re.look (Re.alt (rlit "\n") Re.eol)]

/-- `(?:FIGURE|TABLE|FIG\.|TAB\.)[\s]*(\d+)(?:\.(\d+))?[\s]*[：:：.]?\s*(.+?)(?=\n|$)`
(identical to `captionPat5` under `re.IGNORECASE`, kept because the source
lists it as a separate pattern). -/
def captionPat6 : Re :=
  rcat [ralts (rlit "FIGURE") [rlit "TABLE", rlit "FIG.", rlit "TAB."],
        Re.star isSpaceCh,
        Re.grp 1 (Re.plus isDigitCh),
        Re.opt (rcat [rlit ".", Re.grp 2 (Re.plus isDigitCh)]),
        Re.star isSpaceCh,
        Re.opt (Re.cls (fun c => isColonCh c || c == '.')),
        Re.star isSpaceCh,
        Re.grp 3 (Re.lazyPlus isDotCh),
        Re.look (Re.alt (rlit "\n") Re.eol)]

/-- `CHINESE_PATTERNS + ENGLISH_PATTERNS`, in source order (all compile, so
none is skipped by the warning branch of `_compile_patterns`). -/
def captionPatterns : List Re :=
  [captionPat0, captionPat1, captionPat2, captionPat3, captionPat4,
   captionPat5, captionPat6]

/-- `(?:如|見|參見|參考|詳見)[\s]*(?:圖|表|圖表)[\s]*(\d+)(?:[.-](\d+))?` -/
def referencePat0 : Re :=
  rcat [ralts (rlit "如") [rlit "見", rlit "參見", rlit "參考", rlit "詳見"],
        Re.star isSpaceCh,
        ralts (rlit "圖") [rlit "表", rlit "圖表"],
        Re.star isSpaceCh,
        Re.grp 1 (Re.plus isDigitCh),
        Re.opt (rcat [Re.cls isSepCh, Re.grp 2 (Re.plus isDigitCh)])]

/-- `(?:圖|表|圖表)[\s]*(\d+)(?:[.-](\d+))?[\s]*(?:所示|顯示|中|內)` -/
def referencePat1 : Re :=
  rcat [ralts (rlit "圖") [rlit "表", rlit "圖表"],
        Re.star isSpaceCh,
        Re.grp 1 (Re.plus isDigitCh),
        Re.opt (rcat [Re.cls isSepCh, Re.grp 2 (Re.plus isDigitCh)]),
        Re.star isSpaceCh,
        ralts (rlit "所示") [rlit "顯示", rlit "中", rlit "內"]]

/-- `(?:上|下)[\s]*(?:圖|表)[\s]*(\d+)(?:[.-](\d+))?` -/
def referencePat2 : Re :=
  rcat [ralts (rlit "上") [rlit "下"],
        Re.star isSpaceCh,
        ralts (rlit "圖") [rlit "表"],
        Re.star isSpaceCh,
        Re.grp 1 (Re.plus isDigitCh),
        Re.opt (rcat [Re.cls isSepCh, Re.grp 2 (Re.plus isDigitCh)])]

/-- `(?:see|refer to|as shown in|in)[\s]*(?:Figure|Table|Fig\.|Tab\.)[\s]*(\d+)(?:\.(\d+))?` -/
def referencePat3 : Re :=
  rcat [ralts (rlit "see") [rlit "refer to", rlit "as shown in", rlit "in"],
        Re.star isSpaceCh,
        ralts (rlit "Figure") [rlit "Table", rlit "Fig.", rlit "Tab."],
        Re.star isSpaceCh,
        Re.grp 1 (Re.plus isDigitCh),
        Re.opt (rcat [rlit ".", Re.grp 2 (Re.plus isDigitCh)])]

/-- `(?:Figure|Table|Fig\.|Tab\.)[\s]*(\d+)(?:\.(\d+))?[\s]*(?:shows|displays|illustrates)` -/
def referencePat4 : Re :=
  rcat [ralts (rlit "Figure") [rlit "Table", rlit "Fig.", rlit "Tab."],
        Re.star isSpaceCh,
        Re.grp 1 (Re.plus isDigitCh),
        Re.opt (rcat [rlit ".", Re.grp 2 (Re.plus isDigitCh)]),
        Re.star isSpaceCh,
        ralts (rlit "shows") [rlit "displays", rlit "illustrates"]]

/-- `REFERENCE_PATTERNS`, in source order. -/
def referencePatterns : List Re :=
  [referencePat0, referencePat1, referencePat2, referencePat3, referencePat4]

/-!
## Data model (src/caption_extractor.py dataclasses and src/dto.py DTOs)
-/

/-- `TextBlock` dataclass. -/
structure TextBlock where
  text : List Char
  page_number : ℕ
  bbox : ℚ × ℚ × ℚ × ℚ
  font_size : ℚ
  font_name : String
  is_bold : Bool
deriving Repr, DecidableEq

/-- The fixed-shape `font_info` dictionary attached to caption candidates. -/
structure FontInfo where
  font_name : String
  font_size : ℚ
  is_bold : Bool
deriving Repr, DecidableEq

/-- `CaptionCandidate` dataclass. -/
structure CaptionCandidate where
  text : List Char
  page_number : ℕ
  position : ℚ × ℚ × ℚ × ℚ
  caption_type : String
  number : List Char
  confidence : ℚ
  font_info : FontInfo
deriving Repr, DecidableEq

/-- `ReferenceMatch` dataclass. -/
structure ReferenceMatch where
  text : List Char
  page_number : ℕ
  reference_type : String
  reference_number : List Char
  surrounding_context : List Char
  position : ℚ × ℚ × ℚ × ℚ
  confidence : ℚ
deriving Repr, DecidableEq

/-- `CaptionInfo` DTO (src/dto.py). -/
structure CaptionInfo where
  text : List Char
  page_number : ℕ
  position : ℚ × ℚ × ℚ × ℚ
  caption_type : String
  number : List Char
  confidence : ℚ
deriving Repr, DecidableEq

/-- `ContextInfo` DTO (src/dto.py). -/
structure ContextInfo where
  text : List Char
  page_number : ℕ
  reference_type : String
  reference_number : List Char
  surrounding_text : List Char
  confidence : ℚ
deriving Repr, DecidableEq

/-- `CaptionContextPair` DTO (src/dto.py). -/
structure CaptionContextPair where
  caption : CaptionInfo
  contexts : List ContextInfo
  combined_text : List Char
  pairing_confidence : ℚ
deriving Repr, DecidableEq

/-- The state stored by `CaptionExtractor.__init__` (the logger and the
compiled pattern lists are not part of the value-level state: the patterns
are the module-level `captionPatterns`/`referencePatterns` above, and all of
them compile, so `_compile_patterns` never skips one). The window and length
parameters are Python non-negative ints here (`ℕ`); the threshold is a
float (`ℚ`). -/
structure CaptionExtractor where
  context_window : ℕ
  min_caption_length : ℕ
  confidence_threshold : ℚ
deriving Repr, DecidableEq

/-- `CaptionExtractor.__init__`: stores the three configuration values
verbatim; it performs no validation and cannot fail. -/
def CaptionExtractor.init (context_window min_caption_length : ℕ)
    (confidence_threshold : ℚ) : CaptionExtractor :=
  { context_window := context_window
    min_caption_length := min_caption_length
    confidence_threshold := confidence_threshold }

/-- The constructor defaults (`context_window=200, min_caption_length=5,
confidence_threshold=0.3`). -/
def defaultExtractor : CaptionExtractor :=
  CaptionExtractor.init 200 5 0.3

/-!
## Helper methods of `CaptionExtractor`
-/

/-- `CaptionExtractor._determine_caption_type` (lines 353-364). -/
def determine_caption_type (caption_text : List Char) : String :=
  let caption_lower := pyLower caption_text
  if ["圖".toList, "figure".toList, "fig.".toList, "圖片".toList,
      "圖像".toList].any (fun word => isSubstr word caption_lower) then
    "figure"
  else if ["表".toList, "table".toList, "tab.".toList,
      "表格".toList].any (fun word => isSubstr word caption_lower) then
    "table"
  else if ["chart".toList, "圖表".toList].any
      (fun word => isSubstr word caption_lower) then
    "chart"
  else
    "figure"

/-- `CaptionExtractor._calculate_caption_confidence` (lines 366-390). -/
def calculate_caption_confidence (block : TextBlock) (match_text : List Char) : ℚ :=
  let confidence : ℚ := 0.5
  let confidence :=
    if block.font_size > 12 then confidence + 0.1
    else if block.font_size < 8 then confidence - 0.1
    else confidence
  let confidence := if block.is_bold then confidence + 0.2 else confidence
  let text_length := (pyStrip match_text).length
  let confidence :=
    if 10 < text_length ∧ text_length < 100 then confidence + 0.1
    else if text_length > 200 then confidence - 0.1
    else confidence
  min 1.0 (max 0.0 confidence)

/-- `CaptionExtractor._determine_reference_type` (lines 392-401). -/
def determine_reference_type (ref_text : List Char) : String :=
  let ref_lower := pyLower ref_text
  if ["圖".toList, "figure".toList, "fig.".toList].any
      (fun word => isSubstr word ref_lower) then
    "figure"
  else if ["表".toList, "table".toList, "tab.".toList].any
      (fun word => isSubstr word ref_lower) then
    "table"
  else
    "general"

/-- `CaptionExtractor._calculate_reference_confidence` (lines 403-415). -/
def calculate_reference_confidence (ref_text context : List Char) : ℚ :=
  let confidence : ℚ := 0.5
  let confidence :=
    if 50 < context.length ∧ context.length < 300 then confidence + 0.2
    else confidence
  let confidence :=
    if ["如圖".toList, "見圖".toList, "see figure".toList].any
        (fun word => isSubstr word (pyLower ref_text)) then confidence + 0.2
    else confidence
  min 1.0 (max 0.0 confidence)

/-- `CaptionExtractor._extract_context` (lines 417-422). Subtraction on `ℕ`
truncates at zero exactly like Python's `max(0, start_pos - ...)`; `/` on `ℕ`
is Python's `//` on non-negative ints. -/
def extract_context (self : CaptionExtractor) (text : List Char)
    (start_pos end_pos : ℕ) : List Char :=
  let context_start := start_pos - self.context_window / 2
  let context_end := min text.length (end_pos + self.context_window / 2)
  pyStrip ((text.drop context_start).take (context_end - context_start))

/-- `CaptionExtractor._is_matching_caption` (lines 424-436). -/
def is_matching_caption (caption : CaptionCandidate) (reference : ReferenceMatch) : Bool :=
  if caption.number == reference.reference_number then true
  else if caption.caption_type == reference.reference_type then
    isSubstr caption.number reference.reference_number ||
      isSubstr reference.reference_number caption.number
  else false

/-- `CaptionExtractor._calculate_pairing_confidence` (lines 438-453). -/
def calculate_pairing_confidence (caption : CaptionCandidate)
    (references : List ReferenceMatch) : ℚ :=
  if references.isEmpty then 0.3
  else
    let base_confidence := min 0.8 (0.4 + (references.length : ℚ) * 0.1)
    let avg_ref_confidence :=
      (references.map (fun ref => ref.confidence)).sum / (references.length : ℚ)
    let combined_confidence :=
      (base_confidence + avg_ref_confidence + caption.confidence) / 3
    min 1.0 (max 0.0 combined_confidence)

/-- `enumerate(list, 1)`. -/
def enumFrom1Aux (i : ℕ) : List α → List (ℕ × α)
  | [] => []
  | x :: xs => (i, x) :: enumFrom1Aux (i + 1) xs

/-- `CaptionExtractor._generate_combined_text` (lines 455-468). -/
def generate_combined_text (caption : CaptionInfo) (contexts : List ContextInfo) : List Char :=
  let combined_parts := ["圖表說明：".toList ++ caption.text]
  let combined_parts :=
    if contexts.isEmpty then combined_parts
    else
      combined_parts ++ ["相關內文：".toList] ++
        (enumFrom1Aux 1 contexts).map
          (fun p => Nat.toDigits 10 p.1 ++ ". ".toList ++ p.2.surrounding_text)
  List.intercalate "\n\n".toList combined_parts

/-- The deduplication key `(caption.page_number, caption.number,
caption.text[:50])` of `_deduplicate_captions`. -/
def captionKey (caption : CaptionCandidate) : ℕ × List Char × List Char :=
  (caption.page_number, caption.number, caption.text.take 50)

/-- Worker for `_deduplicate_captions`; the Python `seen` set is modelled as
a list used only through membership. -/
def dedupAux (seen : List (ℕ × List Char × List Char)) :
    List CaptionCandidate → List CaptionCandidate
  | [] => []
  | caption :: rest =>
    let key := captionKey caption
    if key ∈ seen then dedupAux seen rest
    else caption :: dedupAux (key :: seen) rest

/-- `CaptionExtractor._deduplicate_captions` (lines 470-481). -/
def deduplicate_captions (captions : List CaptionCandidate) : List CaptionCandidate :=
  dedupAux [] captions

/-!
## Sorting (`caption_candidates.sort(key=lambda x: (x.page_number, x.number))`)

Python's `list.sort` is a stable ascending sort by the key tuple; tuple
comparison compares `page_number` numerically and `number` as a string,
lexicographically by code point. A stable sort is extensionally unique, so it
is modelled by a stable insertion sort.
-/

/-- Python string `<=`: lexicographic comparison by code point. -/
def strLe : List Char → List Char → Bool
  | [], _ => true
  | _ :: _, [] => false
  | a :: as, b :: bs =>
    if a.toNat = b.toNat then strLe as bs else decide (a.toNat < b.toNat)

/-- Python tuple `<=` on the sort key `(page_number, number)`. -/
def captionLe (a b : CaptionCandidate) : Bool :=
  decide (a.page_number < b.page_number) ||
    (a.page_number == b.page_number && strLe a.number b.number)

/-- Stable insertion into a sorted list. -/
def insertLe (le : α → α → Bool) (x : α) : List α → List α
  | [] => [x]
  | y :: ys => if le x y then x :: y :: ys else y :: insertLe le x ys

/-- Stable insertion sort. -/
def isortLe (le : α → α → Bool) : List α → List α
  | [] => []
  | x :: xs => insertLe le x (isortLe le xs)

/-!
## The three pipeline stages
-/

/-- The raw candidate-building step inside the `identify_captions` loops: for
one pattern match in one block, combine the number, drop too-short captions,
and build the candidate. All caption patterns expose exactly 3 groups, so the
`len(groups) >= 3` guard always holds. An empty (`None`) sub-number group and
Python's falsiness of the empty string both land in the `getD []`/`isEmpty`
branches. -/
def candidate_of_match (self : CaptionExtractor) (block : TextBlock)
    (m : PyMatch) : Option CaptionCandidate :=
  let number1 := (m.group 1).getD []
  let number2 := (m.group 2).getD []
  let caption_text := (m.group 3).getD []
  let number := if number2.isEmpty then number1 else number1 ++ ('.' :: number2)
  if (pyStrip caption_text).length < self.min_caption_length then none
  else some
    { text := pyStrip caption_text
      page_number := block.page_number
      position := block.bbox
      caption_type := determine_caption_type m.group0
      number := number
      confidence := calculate_caption_confidence block m.group0
      font_info :=
        { font_name := block.font_name
          font_size := block.font_size
          is_bold := block.is_bold } }

/-- `CaptionExtractor.identify_captions` (lines 193-241): scan every block
with every caption pattern, deduplicate, and sort by `(page_number, number)`. -/
def identify_captions (self : CaptionExtractor) (text_blocks : List TextBlock) :
    List CaptionCandidate :=
  let caption_candidates := text_blocks.flatMap (fun block =>
    captionPatterns.flatMap (fun pattern =>
      (finditer pattern block.text).filterMap
        (fun m => candidate_of_match self block m)))
  isortLe captionLe (deduplicate_captions caption_candidates)

/-- The known-identifier set built at the top of `find_references`
(lines 248-250): for every caption both `f"{caption_type}_{number}"` and the
bare `number`. The Python set is modelled as a list used only through
membership and `any`, for which duplicates and order are irrelevant. -/
def caption_numbers_of (captions : List CaptionCandidate) : List (List Char) :=
  captions.map (fun cap => cap.caption_type.toList ++ ('_' :: cap.number)) ++
    captions.map (fun cap => cap.number)

/-- The acceptance test of `find_references` (line 267):
`ref_number in caption_numbers or any(ref_number in num for num in
caption_numbers)` — exact membership, or `ref_number` a substring of some
known identifier. -/
def refAccept (caption_numbers : List (List Char)) (ref_number : List Char) : Bool :=
  decide (ref_number ∈ caption_numbers) ||
    caption_numbers.any (fun num => isSubstr ref_number num)

/-- The combined reference number of a match (lines 260-264). -/
def ref_number_of_match (m : PyMatch) : List Char :=
  let number1 := (m.group 1).getD []
  let number2 := (m.group 2).getD []
  if number2.isEmpty then number1 else number1 ++ ('.' :: number2)

/-- The `ReferenceMatch` built for an accepted match (lines 268-285). -/
def reference_of_match (self : CaptionExtractor) (block : TextBlock)
    (m : PyMatch) : ReferenceMatch :=
  let context := extract_context self block.text m.start m.stop
  { text := m.group0
    page_number := block.page_number
    reference_type := determine_reference_type m.group0
    reference_number := ref_number_of_match m
    surrounding_context := context
    position := block.bbox
    confidence := calculate_reference_confidence m.group0 context }

/-- `CaptionExtractor.find_references` (lines 243-287). -/
def find_references (self : CaptionExtractor) (text_blocks : List TextBlock)
    (captions : List CaptionCandidate) : List ReferenceMatch :=
  let caption_numbers := caption_numbers_of captions
  text_blocks.flatMap (fun block =>
    referencePatterns.flatMap (fun pattern =>
      (finditer pattern block.text).filterMap (fun m =>
        if refAccept caption_numbers (ref_number_of_match m) then
          some (reference_of_match self block m)
        else none)))

/-- The reference-pattern matches of `find_references` before the known-number
filter: the same scan with the line-267 test removed (each match rendered as
the `ReferenceMatch` it would produce). -/
def reference_raw_matches (self : CaptionExtractor) (text_blocks : List TextBlock) :
    List ReferenceMatch :=
  text_blocks.flatMap (fun block =>
    referencePatterns.flatMap (fun pattern =>
      (finditer pattern block.text).map (fun m => reference_of_match self block m)))

/-- The `CaptionInfo` DTO built from a candidate (lines 314-321). -/
def captionToInfo (caption : CaptionCandidate) : CaptionInfo :=
  { text := caption.text
    page_number := caption.page_number
    position := caption.position
    caption_type := caption.caption_type
    number := caption.number
    confidence := caption.confidence }

/-- The `ContextInfo` DTO built from a reference (lines 324-332). -/
def referenceToInfo (ref : ReferenceMatch) : ContextInfo :=
  { text := ref.text
    page_number := ref.page_number
    reference_type := ref.reference_type
    reference_number := ref.reference_number
    surrounding_text := ref.surrounding_context
    confidence := ref.confidence }

/-- `CaptionExtractor.pair_captions_with_contexts` (lines 289-347). The Python
code first groups references under `id(caption)` (appending in reference
order) and then emits one pair per entry of `captions`; at value level the
group of a caption is exactly the sublist of `references` matching it, in
discovery order, which is how it is written here. -/
def pair_captions_with_contexts (captions : List CaptionCandidate)
    (references : List ReferenceMatch) : List CaptionContextPair :=
  captions.map (fun caption =>
    let matched_refs := references.filter (fun ref => is_matching_caption caption ref)
    let caption_info := captionToInfo caption
    let context_infos := matched_refs.map referenceToInfo
    let pairing_confidence := calculate_pairing_confidence caption matched_refs
    let combined_text := generate_combined_text caption_info context_infos
    { caption := caption_info
      contexts := context_infos
      combined_text := combined_text
      pairing_confidence := pairing_confidence })

/-- The final low-confidence filter of `PDFCaptionContextProcessor.process_pdf`
(lines 523-526): keep pairs with `pairing_confidence >= threshold`. -/
def filter_pairs (threshold : ℚ) (pairs : List CaptionContextPair) :
    List CaptionContextPair :=
  pairs.filter (fun pair => decide (threshold ≤ pair.pairing_confidence))

/-- `PDFCaptionContextProcessor.process_pdf` (lines 502-534) from the point
where the text blocks have been extracted: identify captions, find references,
pair, and filter by the configured confidence threshold. (The preceding
`extract_text_blocks` step parses the PDF binary through PyMuPDF and is the
external-ingestion boundary; its output is this function's input.) -/
def process_text_blocks (self : CaptionExtractor) (text_blocks : List TextBlock) :
    List CaptionContextPair :=
  let captions := identify_captions self text_blocks
  let references := find_references self text_blocks captions
  let pairs := pair_captions_with_contexts captions references
  filter_pairs self.confidence_threshold pairs

/-!
## Configuration DTOs and validation (src/dto.py)
-/

/-- `ProcessingConfig` (src/dto.py lines 25-42), restricted to the fields the
validator reads plus the processing options. The two int fields are Python
non-negative ints (`ℕ`). -/
structure ProcessingConfig where
  context_window : ℕ
  min_caption_length : ℕ
  confidence_threshold : ℚ
  language : String
  include_tables : Bool
  include_figures : Bool
  include_charts : Bool
deriving Repr, DecidableEq

/-- `FileInfo` (src/dto.py lines 45-51). -/
structure FileInfo where
  file_path : List Char
  file_name : List Char
  file_size : ℕ
deriving Repr, DecidableEq

/-- `ProcessingRequest` (src/dto.py lines 54-60). -/
structure ProcessingRequest where
  file_info : FileInfo
  config : ProcessingConfig
  cache_enabled : Bool
deriving Repr, DecidableEq

/-- `validate_processing_request` (src/dto.py lines 190-213): returns
`(len(errors) == 0, errors)`; `not request.file_info.file_path` is Python
falsiness of the empty string. -/
def validate_processing_request (request : ProcessingRequest) : Bool × List String :=
  let errors : List String := []
  let errors :=
    if request.file_info.file_path.isEmpty then errors ++ ["檔案路徑不能為空"]
    else errors
  let config := request.config
  let errors :=
    if config.confidence_threshold < 0 ∨ config.confidence_threshold > 1 then
      errors ++ ["信心度閾值必須在 0-1 之間"]
    else errors
  let errors :=
    if config.context_window < 50 then errors ++ ["上下文窗口不能小於 50"]
    else errors
  let errors :=
    if config.min_caption_length < 1 then errors ++ ["最小 caption 長度不能小於 1"]
    else errors
  (errors.length == 0, errors)

/-- `create_default_config` (src/dto.py lines 249-259). -/
def create_default_config : ProcessingConfig :=
  { context_window := 200
    min_caption_length := 5
    confidence_threshold := 0.3
    language := "zh-TW"
    include_tables := true
    include_figures := true
    include_charts := true }

/-- The pairing stage output before the final threshold filter of
`process_pdf`. -/
def unfiltered_pairs (self : CaptionExtractor) (text_blocks : List TextBlock) :
    List CaptionContextPair :=
  pair_captions_with_contexts (identify_captions self text_blocks)
    (find_references self text_blocks (identify_captions self text_blocks))

/-- Deduplication as §4.3 of the specification words it: "sequence of
candidates → deduplicated sequence, preserving first-seen order; first
occurrence per key wins; later occurrences are discarded". Stated as a
recursion that keeps each head and erases every later candidate with the same
key; compared below with the seen-set implementation `deduplicate_captions`. -/
def dedup_spec : List CaptionCandidate → List CaptionCandidate
  | [] => []
  | c :: rest =>
    c :: dedup_spec (rest.filter (fun d => decide (captionKey d ≠ captionKey c)))
termination_by l => l.length
decreasing_by
  simp only [List.length_cons]
  exact Nat.lt_succ_of_le (List.length_filter_le _ rest)

/-- Clamping to `[0,1]`, as the specification writes it. -/
def clamp01 (x : ℚ) : ℚ := min 1 (max 0 x)

/-- A concrete pair used to witness the threshold-monotonicity theorem. -/
def sample_pair : CaptionContextPair :=
  { caption :=
      { text := "測試圖片說明".toList
        page_number := 1
        position := (0, 0, 0, 0)
        caption_type := "figure"
        number := "1".toList
        confidence := 0.7 }
    contexts := []
    combined_text := []
    pairing_confidence := 0.3 }

/-!
## Concrete inputs for the scenario claims
-/

/-- The fragment of Scenario 1: `"圖 1：測試圖片說明\n這是圖片的詳細描述。"`
on page 1, font size 12, bold. -/
def scenario1_block : TextBlock :=
  { text := "圖 1：測試圖片說明\n這是圖片的詳細描述。".toList
    page_number := 1
    bbox := (100, 200, 400, 280)
    font_size := 12
    font_name := "Arial"
    is_bold := true }

/-- A fragment carrying two captions numbered `10` and `2` on the same page,
for the lexicographic-sort scenario. -/
def lexsort_block : TextBlock :=
  { text := "圖 10：這是第十張圖片\n圖 2：這是第二張圖片".toList
    page_number := 1
    bbox := (0, 0, 0, 0)
    font_size := 10
    font_name := "Arial"
    is_bold := false }

/-- A deduplicated caption `figure 1`, whose known identifiers are
`figure_1` and `1`. -/
def containment_caption : CaptionCandidate :=
  { text := "測試圖片說明".toList
    page_number := 1
    position := (0, 0, 0, 0)
    caption_type := "figure"
    number := "1".toList
    confidence := 0.7
    font_info := { font_name := "Arial", font_size := 12, is_bold := true } }

/-- A fragment whose only reference-pattern match is `如圖 1.2`, with combined
reference number `1.2`: the known identifier `1` is a substring of `1.2`, but
`1.2` is not an element and not a substring of any known identifier. -/
def containment_block : TextBlock :=
  { text := "如圖 1.2".toList
    page_number := 1
    bbox := (0, 0, 0, 0)
    font_size := 10
    font_name := "Arial"
    is_bold := false }

/-- A configuration whose confidence threshold `2` lies outside `[0,1]`. -/
def invalid_config : ProcessingConfig :=
  { context_window := 200
    min_caption_length := 5
    confidence_threshold := 2
    language := "zh-TW"
    include_tables := true
    include_figures := true
    include_charts := true }

/-- A processing request carrying `invalid_config` and a nonempty path. -/
def invalid_request : ProcessingRequest :=
  { file_info :=
      { file_path := "test.pdf".toList
        file_name := "test.pdf".toList
        file_size := 1024 }
    config := invalid_config
    cache_enabled := true }

/-!
## Basic lemmas about the string helpers
-/

lemma startsWithChars_iff (a : List Char) :
    ∀ b, startsWithChars a b = true ↔ ∃ t, b = a ++ t := by
  induction a with
  | nil =>
    intro b
    simp [startsWithChars]
  | cons x xs ih =>
    intro b
    cases b with
    | nil =>
      simp [startsWithChars]
    | cons y ys =>
      simp only [startsWithChars, Bool.and_eq_true, beq_iff_eq, ih ys,
        List.cons_append, List.cons.injEq]
      constructor
      · rintro ⟨h1, t, h2⟩
        exact ⟨t, h1.symm, h2⟩
      · rintro ⟨t, h1, h2⟩
        exact ⟨h1.symm, t, h2⟩

lemma isSubstr_iff (a b : List Char) :
    isSubstr a b = true ↔ ∃ p q, b = p ++ a ++ q := by
  induction b with
  | nil =>
    simp only [isSubstr, startsWithChars_iff]
    constructor
    · rintro ⟨t, ht⟩
      exact ⟨[], t, by simpa using ht⟩
    · rintro ⟨p, q, h⟩
      rcases List.append_eq_nil.mp ((List.append_assoc p a q ▸ h).symm) with ⟨hp, haq⟩
      rcases List.append_eq_nil.mp haq with ⟨ha, hq⟩
      exact ⟨[], by simp [ha]⟩
  | cons y ys ih =>
    simp only [isSubstr, Bool.or_eq_true, startsWithChars_iff, ih]
    constructor
    · rintro (⟨t, ht⟩ | ⟨p, q, h⟩)
      · exact ⟨[], t, by simpa using ht⟩
      · exact ⟨y :: p, q, by simp [h]⟩
    · rintro ⟨p, q, h⟩
      cases p with
      | nil =>
        left
        exact ⟨q, by simpa using h⟩
      | cons z zs =>
        right
        rw [List.cons_append, List.cons_append, List.cons.injEq] at h
        exact ⟨zs, q, h.2⟩

lemma isSubstr_trans {a b c : List Char} (h1 : isSubstr a b = true)
    (h2 : isSubstr b c = true) : isSubstr a c = true := by
  rcases (isSubstr_iff a b).mp h1 with ⟨p, q, rfl⟩
  rcases (isSubstr_iff _ c).mp h2 with ⟨p', q', rfl⟩
  exact (isSubstr_iff a _).mpr ⟨p' ++ p, q ++ q', by simp⟩

lemma isSubstr_map {a b : List Char} (f : Char → Char)
    (h : isSubstr a b = true) : isSubstr (a.map f) (b.map f) = true := by
  rcases (isSubstr_iff a b).mp h with ⟨p, q, rfl⟩
  exact (isSubstr_iff _ _).mpr ⟨p.map f, q.map f, by simp⟩

/-!
## Generic list lemmas used to relate the loop-with-guard shape of the Python
code to filtered versions of the raw scans
-/

lemma filter_flatMap (l : List α) (f : α → List β) (p : β → Bool) :
    (l.flatMap f).filter p = l.flatMap (fun a => (f a).filter p) := by
  induction l with
  | nil => simp
  | cons x xs ih => simp [List.filter_append, ih]

lemma filterMap_guard (f : α → β) (p : α → Bool) (l : List α) :
    l.filterMap (fun a => if p a then some (f a) else none) =
      (l.filter p).map f := by
  induction l with
  | nil => simp
  | cons x xs ih =>
    by_cases h : p x <;> simp [List.filter_cons, h, ih]

/-!
## Sortedness of the insertion sort
-/

lemma mem_insertLe (le : α → α → Bool) (x : α) (l : List α) (y : α) :
    y ∈ insertLe le x l ↔ y = x ∨ y ∈ l := by
  induction l with
  | nil => simp [insertLe]
  | cons z zs ih =>
    by_cases h : le x z
    · simp [insertLe, h]
    · simp only [insertLe, h, Bool.false_eq_true, if_false, List.mem_cons, ih]
      tauto

lemma pairwise_insertLe (le : α → α → Bool)
    (htot : ∀ a b, le a b = true ∨ le b a = true)
    (htrans : ∀ a b c, le a b = true → le b c = true → le a c = true)
    (x : α) (l : List α) (hl : l.Pairwise (fun a b => le a b = true)) :
    (insertLe le x l).Pairwise (fun a b => le a b = true) := by
  induction l with
  | nil => simp [insertLe]
  | cons z zs ih =>
    rw [List.pairwise_cons] at hl
    obtain ⟨hz, hzs⟩ := hl
    by_cases h : le x z
    · rw [insertLe, if_pos h]
      refine List.Pairwise.cons ?_ (List.Pairwise.cons hz hzs)
      intro y hy
      rcases List.mem_cons.mp hy with rfl | hmem
      · exact h
      · exact htrans x z y h (hz y hmem)
    · have hzx : le z x = true := by
        rcases htot x z with h1 | h1
        · exact absurd h1 h
        · exact h1
      rw [insertLe, if_neg h]
      refine List.Pairwise.cons ?_ (ih hzs)
      intro y hy
      rcases (mem_insertLe le x zs y).mp hy with rfl | hmem
      · exact hzx
      · exact hz y hmem

lemma pairwise_isortLe (le : α → α → Bool)
    (htot : ∀ a b, le a b = true ∨ le b a = true)
    (htrans : ∀ a b c, le a b = true → le b c = true → le a c = true)
    (l : List α) :
    (isortLe le l).Pairwise (fun a b => le a b = true) := by
  induction l with
  | nil => simp [isortLe]
  | cons x xs ih => exact pairwise_insertLe le htot htrans x _ ih

lemma mem_isortLe (le : α → α → Bool) (l : List α) (y : α) :
    y ∈ isortLe le l ↔ y ∈ l := by
  induction l with
  | nil => simp [isortLe]
  | cons x xs ih =>
    simp [isortLe, mem_insertLe, ih]

lemma strLe_total : ∀ a b : List Char, strLe a b = true ∨ strLe b a = true := by
  intro a
  induction a with
  | nil => intro b; left; simp [strLe]
  | cons x xs ih =>
    intro b
    cases b with
    | nil => right; simp [strLe]
    | cons y ys =>
      by_cases hxy : x.toNat = y.toNat
      · rcases ih ys with h | h
        · left; simp [strLe, hxy, h]
        · right; simp [strLe, hxy.symm, h]
      · rcases Nat.lt_or_ge x.toNat y.toNat with hlt | hge
        · left; simp [strLe, hxy, hlt]
        · right
          have hyx : ¬ y.toNat = x.toNat := fun h => hxy h.symm
          have : y.toNat < x.toNat := lt_of_le_of_ne hge hyx
          simp [strLe, hyx, this]

lemma strLe_trans : ∀ a b c : List Char,
    strLe a b = true → strLe b c = true → strLe a c = true := by
  intro a
  induction a with
  | nil => intro b c _ _; simp [strLe]
  | cons x xs ih =>
    intro b c hab hbc
    cases b with
    | nil => simp [strLe] at hab
    | cons y ys =>
      cases c with
      | nil => simp [strLe] at hbc
      | cons z zs =>
        simp only [strLe] at hab hbc ⊢
        by_cases hxy : x.toNat = y.toNat <;> by_cases hyz : y.toNat = z.toNat
        · rw [if_pos hxy] at hab
          rw [if_pos hyz] at hbc
          rw [if_pos (hxy.trans hyz)]
          exact ih ys zs hab hbc
        · rw [if_neg hyz] at hbc
          have hxz : ¬ x.toNat = z.toNat := by rw [hxy]; exact hyz
          rw [if_neg hxz, hxy]
          exact hbc
        · rw [if_neg hxy] at hab
          have hxz : ¬ x.toNat = z.toNat := by rw [← hyz]; exact hxy
          rw [if_neg hxz, ← hyz]
          exact hab
        · rw [if_neg hxy] at hab
          rw [if_neg hyz] at hbc
          have hlt : x.toNat < z.toNat :=
            Nat.lt_trans (of_decide_eq_true hab) (of_decide_eq_true hbc)
          rw [if_neg (Nat.ne_of_lt hlt)]
          exact decide_eq_true hlt

lemma captionLe_total : ∀ a b : CaptionCandidate,
    captionLe a b = true ∨ captionLe b a = true := by
  intro a b
  rcases Nat.lt_trichotomy a.page_number b.page_number with h | h | h
  · left; simp [captionLe, h]
  · rcases strLe_total a.number b.number with hs | hs
    · left; simp [captionLe, h, hs]
    · right; simp [captionLe, h.symm, hs]
  · right; simp [captionLe, h]

lemma captionLe_trans : ∀ a b c : CaptionCandidate,
    captionLe a b = true → captionLe b c = true → captionLe a c = true := by
  intro a b c hab hbc
  simp only [captionLe, Bool.or_eq_true, Bool.and_eq_true, decide_eq_true_eq,
    beq_iff_eq] at hab hbc ⊢
  rcases hab with hab | ⟨hab1, hab2⟩
  · rcases hbc with hbc | ⟨hbc1, hbc2⟩
    · exact Or.inl (Nat.lt_trans hab hbc)
    · exact Or.inl (hbc1 ▸ hab)
  · rcases hbc with hbc | ⟨hbc1, hbc2⟩
    · exact Or.inl (hab1 ▸ hbc)
    · exact Or.inr ⟨hab1.trans hbc1, strLe_trans _ _ _ hab2 hbc2⟩

/-!
## Deduplication lemmas
-/


lemma dedupAux_sublist (cs : List CaptionCandidate) :
    ∀ seen, (dedupAux seen cs).Sublist cs := by
  induction cs with
  | nil => intro seen; simp [dedupAux]
  | cons x rest ih =>
    intro seen
    rw [dedupAux]
    by_cases h : captionKey x ∈ seen
    · rw [if_pos h]
      exact (ih seen).cons x
    · rw [if_neg h]
      exact (ih (captionKey x :: seen)).cons₂ x

lemma mem_dedupAux_not_seen (cs : List CaptionCandidate) :
    ∀ seen c, c ∈ dedupAux seen cs → captionKey c ∉ seen := by
  induction cs with
  | nil => intro seen c hc; simp [dedupAux] at hc
  | cons x rest ih =>
    intro seen c hc
    rw [dedupAux] at hc
    by_cases h : captionKey x ∈ seen
    · rw [if_pos h] at hc
      exact ih seen c hc
    · rw [if_neg h] at hc
      rcases List.mem_cons.mp hc with rfl | hmem
      · exact h
      · have := ih (captionKey x :: seen) c hmem
        exact fun hin => this (List.mem_cons_of_mem _ hin)

lemma dedupAux_pairwise (cs : List CaptionCandidate) :
    ∀ seen, (dedupAux seen cs).Pairwise
      (fun a b => captionKey a ≠ captionKey b) := by
  induction cs with
  | nil => intro seen; simp [dedupAux]
  | cons x rest ih =>
    intro seen
    rw [dedupAux]
    by_cases h : captionKey x ∈ seen
    · rw [if_pos h]
      exact ih seen
    · rw [if_neg h]
      refine List.Pairwise.cons ?_ (ih (captionKey x :: seen))
      intro b hb
      have := mem_dedupAux_not_seen rest (captionKey x :: seen) b hb
      intro hEq
      exact this (hEq ▸ List.mem_cons_self _ _)

lemma dedupAux_eq_spec (cs : List CaptionCandidate) :
    ∀ seen, dedupAux seen cs =
      dedup_spec (cs.filter (fun c => decide (captionKey c ∉ seen))) := by
  induction cs with
  | nil => intro seen; simp [dedupAux, dedup_spec]
  | cons x rest ih =>
    intro seen
    rw [dedupAux]
    by_cases h : captionKey x ∈ seen
    · rw [if_pos h]
      have hx : (decide (captionKey x ∉ seen)) = false := by simp [h]
      rw [List.filter_cons, hx]
      exact ih seen
    · rw [if_neg h]
      have hx : (decide (captionKey x ∉ seen)) = true := by simp [h]
      rw [List.filter_cons, hx]
      simp only [if_true]
      rw [dedup_spec]
      have hfilter :
          (rest.filter (fun c => decide (captionKey c ∉ seen))).filter
              (fun d => decide (captionKey d ≠ captionKey x)) =
            rest.filter (fun c => decide (captionKey c ∉ captionKey x :: seen)) := by
        rw [List.filter_filter]
        apply List.filter_congr
        intro d _
        by_cases h1 : captionKey d = captionKey x <;>
          by_cases h2 : captionKey d ∈ seen <;> simp [h1, h2]
      rw [hfilter, ih (captionKey x :: seen)]

lemma deduplicate_captions_eq_spec (cs : List CaptionCandidate) :
    deduplicate_captions cs = dedup_spec cs := by
  rw [deduplicate_captions, dedupAux_eq_spec cs []]
  congr 1
  apply List.filter_eq_self.mpr
  intro a _
  simp

/-!
## Confidence bounds
-/

lemma clamp_bounds {x lo hi : ℚ} (h1 : lo ≤ x) (h2 : x ≤ hi) (h3 : 0 ≤ lo)
    (h4 : hi ≤ 1) :
    lo ≤ min 1.0 (max 0.0 x) ∧ min 1.0 (max 0.0 x) ≤ hi := by
  constructor
  · refine le_min (by norm_num; linarith) ?_
    exact le_trans h1 (le_max_right _ _)
  · refine le_trans (min_le_right _ _) (max_le ?_ h2)
    linarith

/-- The caption scorer always lands in `[0.3, 0.9]` (so its final clamp to
`[0,1]` never binds). -/
lemma caption_confidence_bounds (block : TextBlock) (match_text : List Char) :
    3/10 ≤ calculate_caption_confidence block match_text ∧
      calculate_caption_confidence block match_text ≤ 9/10 := by
  simp only [calculate_caption_confidence]
  split_ifs <;>
    exact clamp_bounds (by norm_num) (by norm_num) (by norm_num) (by norm_num)

/-- The reference scorer always lands in `[0.5, 0.9]` (so its final clamp to
`[0,1]` never binds). -/
lemma reference_confidence_bounds (ref_text context : List Char) :
    1/2 ≤ calculate_reference_confidence ref_text context ∧
      calculate_reference_confidence ref_text context ≤ 9/10 := by
  simp only [calculate_reference_confidence]
  split_ifs <;>
    exact clamp_bounds (by norm_num) (by norm_num) (by norm_num) (by norm_num)

lemma mul_length_le_sum (c : ℚ) (l : List ℚ) (h : ∀ x ∈ l, c ≤ x) :
    c * l.length ≤ l.sum := by
  induction l with
  | nil => simp
  | cons x xs ih =>
    have hx := h x (List.mem_cons_self x xs)
    have hxs := ih (fun y hy => h y (List.mem_cons_of_mem _ hy))
    simp only [List.sum_cons, List.length_cons]
    push_cast
    linarith

/-- The pairing scorer never goes below `0.3`: it is `0.3` exactly for an
empty reference group and at least `13/30` otherwise. -/
lemma pairing_confidence_lower (caption : CaptionCandidate)
    (references : List ReferenceMatch) (hc : 3/10 ≤ caption.confidence)
    (hr : ∀ r ∈ references, 1/2 ≤ r.confidence) :
    3/10 ≤ calculate_pairing_confidence caption references := by
  rw [calculate_pairing_confidence]
  cases references with
  | nil => norm_num
  | cons r rs =>
    simp only [List.isEmpty_cons, Bool.false_eq_true, if_false]
    have hn : 1 ≤ (r :: rs).length := by simp
    have hnQ : (1 : ℚ) ≤ ((r :: rs).length : ℚ) := by exact_mod_cast hn
    have hnpos : (0 : ℚ) < ((r :: rs).length : ℚ) := by linarith
    have hbase : (1/2 : ℚ) ≤ min 0.8 (0.4 + ((r :: rs).length : ℚ) * 0.1) := by
      refine le_min (by norm_num) ?_
      nlinarith
    have havg : (1/2 : ℚ) ≤
        ((r :: rs).map (fun ref => ref.confidence)).sum / ((r :: rs).length : ℚ) := by
      rw [le_div_iff₀ hnpos]
      have := mul_length_le_sum (1/2) ((r :: rs).map (fun ref => ref.confidence))
        (by
          intro x hx
          rcases List.mem_map.mp hx with ⟨ref, hrefmem, rfl⟩
          exact hr ref hrefmem)
      simpa using this
    have hcomb : (13/30 : ℚ) ≤
        (min 0.8 (0.4 + ((r :: rs).length : ℚ) * 0.1) +
          ((r :: rs).map (fun ref => ref.confidence)).sum / ((r :: rs).length : ℚ) +
          caption.confidence) / 3 := by
      rw [le_div_iff₀ (by norm_num : (0:ℚ) < 3)]
      linarith
    refine le_min (by norm_num) ?_
    refine le_trans ?_ (le_max_right _ _)
    linarith

/-!
## Every confidence flowing through the pipeline respects these bounds
-/

lemma identify_captions_confidence {self : CaptionExtractor}
    {text_blocks : List TextBlock} {c : CaptionCandidate}
    (h : c ∈ identify_captions self text_blocks) :
    3/10 ≤ c.confidence ∧ c.confidence ≤ 9/10 := by
  rw [identify_captions] at h
  rw [mem_isortLe] at h
  have h2 := (dedupAux_sublist _ []).subset h
  rcases List.mem_flatMap.mp h2 with ⟨block, _, hinner⟩
  rcases List.mem_flatMap.mp hinner with ⟨pattern, _, hmatch⟩
  rcases List.mem_filterMap.mp hmatch with ⟨m, _, hsome⟩
  rw [candidate_of_match] at hsome
  split at hsome
  · exact absurd hsome (by simp)
  · rw [Option.some.injEq] at hsome
    rw [← hsome]
    exact caption_confidence_bounds block m.group0

lemma find_references_confidence {self : CaptionExtractor}
    {text_blocks : List TextBlock} {captions : List CaptionCandidate}
    {r : ReferenceMatch} (h : r ∈ find_references self text_blocks captions) :
    1/2 ≤ r.confidence ∧ r.confidence ≤ 9/10 := by
  rw [find_references] at h
  rcases List.mem_flatMap.mp h with ⟨block, _, hinner⟩
  rcases List.mem_flatMap.mp hinner with ⟨pattern, _, hmatch⟩
  rcases List.mem_filterMap.mp hmatch with ⟨m, _, hsome⟩
  split at hsome
  · rw [Option.some.injEq] at hsome
    rw [← hsome]
    exact reference_confidence_bounds m.group0 _
  · exact absurd hsome (by simp)

lemma pair_pairing_confidence {captions : List CaptionCandidate}
    {references : List ReferenceMatch} {p : CaptionContextPair}
    (hcap : ∀ c ∈ captions, 3/10 ≤ c.confidence)
    (href : ∀ r ∈ references, 1/2 ≤ r.confidence)
    (h : p ∈ pair_captions_with_contexts captions references) :
    3/10 ≤ p.pairing_confidence := by
  rw [pair_captions_with_contexts] at h
  rcases List.mem_map.mp h with ⟨caption, hcapmem, rfl⟩
  exact pairing_confidence_lower caption _ (hcap caption hcapmem)
    (fun r hr => href r (List.mem_of_mem_filter hr))


lemma unfiltered_pairs_lower {self : CaptionExtractor}
    {text_blocks : List TextBlock} {p : CaptionContextPair}
    (h : p ∈ unfiltered_pairs self text_blocks) :
    3/10 ≤ p.pairing_confidence := by
  exact pair_pairing_confidence
    (fun c hc => (identify_captions_confidence hc).1)
    (fun r hr => (find_references_confidence hr).1) h

/-!
## Claim theorems
-/

/-- C4: for every caption list and reference list,
`pair_captions_with_contexts` returns exactly one `CaptionContextPair` per
input caption, in the same order — the sequence of `caption` fields of the
output is exactly the input caption list (as DTOs), and in particular the
output length equals the input length; no caption is dropped or duplicated. -/
theorem spec_c4 (captions : List CaptionCandidate) (references : List ReferenceMatch) :
    (pair_captions_with_contexts captions references).map (fun p => p.caption) =
      captions.map captionToInfo ∧
    (pair_captions_with_contexts captions references).length = captions.length := by
  constructor
  · rw [pair_captions_with_contexts, List.map_map]
    rfl
  · rw [pair_captions_with_contexts, List.length_map]

/-- C5: deduplication keeps exactly the first occurrence of each key
`(page_number, number, text[:50])` — it equals the first-occurrence
recursion `dedup_spec`, is a sublist of its input (first-seen order, fields
unchanged), and no two entries of the result share a key. -/
theorem spec_c5 (captions : List CaptionCandidate) :
    deduplicate_captions captions = dedup_spec captions ∧
    (deduplicate_captions captions).Sublist captions ∧
    (deduplicate_captions captions).Pairwise
      (fun a b => captionKey a ≠ captionKey b) :=
  ⟨deduplicate_captions_eq_spec captions, dedupAux_sublist captions [],
    dedupAux_pairwise captions []⟩


/-- C6: the pairing confidence is exactly `0.3` for an empty reference group,
and otherwise
`clamp01((min(0.8, 0.4 + 0.1·n) + mean(ref confidences) + caption confidence)/3)`. -/
theorem spec_c6 (caption : CaptionCandidate) (references : List ReferenceMatch) :
    calculate_pairing_confidence caption references =
      if references = [] then 0.3
      else clamp01 ((min 0.8 (0.4 + (references.length : ℚ) * 0.1) +
        (references.map (fun ref => ref.confidence)).sum / (references.length : ℚ) +
        caption.confidence) / 3) := by
  rw [calculate_pairing_confidence]
  cases references with
  | nil => simp
  | cons r rs =>
    simp only [List.isEmpty_cons, Bool.false_eq_true, if_false, clamp01,
      List.cons_ne_nil]
    norm_num

/-- C8: the threshold filter is antitone in the threshold — for
`t1 ≤ t2` the pairs kept at `t2` are a sublist of those kept at `t1`, so the
filtered output can only shrink when the threshold is raised. -/
theorem spec_c8 (pairs : List CaptionContextPair) (t1 t2 : ℚ) (h : t1 ≤ t2) :
    (filter_pairs t2 pairs).Sublist (filter_pairs t1 pairs) ∧
    (filter_pairs t2 pairs).length ≤ (filter_pairs t1 pairs).length := by
  have hsub : (filter_pairs t2 pairs).Sublist (filter_pairs t1 pairs) := by
    induction pairs with
    | nil => simp [filter_pairs]
    | cons p ps ih =>
      rw [filter_pairs, filter_pairs, List.filter_cons, List.filter_cons]
      by_cases h2 : t2 ≤ p.pairing_confidence
      · rw [decide_eq_true h2, decide_eq_true (le_trans h h2)]
        exact ih.cons₂ p
      · rw [decide_eq_false h2]
        by_cases h1 : t1 ≤ p.pairing_confidence
        · rw [decide_eq_true h1]
          exact ih.cons p
        · rw [decide_eq_false h1]
          exact ih
  exact ⟨hsub, hsub.length_le⟩


/-- Witness for C8 at `t1 = 1/4 ≤ t2 = 1/2` on a one-pair list. -/
theorem spec_c8_witness :
    (1/4 : ℚ) ≤ 1/2 ∧
    ((filter_pairs (1/2) [sample_pair]).Sublist (filter_pairs (1/4) [sample_pair]) ∧
      (filter_pairs (1/2) [sample_pair]).length ≤
        (filter_pairs (1/4) [sample_pair]).length) :=
  ⟨by norm_num, spec_c8 [sample_pair] (1/4) (1/2) (by norm_num)⟩

/-- C10: any caption text containing the Chinese chart keyword `圖表` is
classified `"figure"` (the figure keyword `圖` is a substring of `圖表` and
figure keywords are tested first), and the `"chart"` branch is reachable only
for text whose lowering contains the English word `chart` while containing no
figure keyword and no table keyword. -/
theorem spec_c10 :
    (∀ s : List Char, isSubstr "圖表".toList s = true →
      determine_caption_type s = "figure") ∧
    (∀ s : List Char, determine_caption_type s = "chart" →
      isSubstr "chart".toList (pyLower s) = true ∧
      (["圖".toList, "figure".toList, "fig.".toList, "圖片".toList,
        "圖像".toList].any (fun word => isSubstr word (pyLower s))) = false ∧
      (["表".toList, "table".toList, "tab.".toList,
        "表格".toList].any (fun word => isSubstr word (pyLower s))) = false) := by
  have htu : ∀ l : List Char, isSubstr "圖表".toList l = true →
      isSubstr "圖".toList l = true := by
    intro l hl
    exact isSubstr_trans (a := "圖".toList) (by decide) hl
  constructor
  · intro s hs
    have hlow : isSubstr "圖表".toList (pyLower s) = true := by
      have := isSubstr_map Char.toLower hs
      simpa [pyLower] using this
    have hfig : isSubstr "圖".toList (pyLower s) = true := htu _ hlow
    rw [determine_caption_type, if_pos]
    rw [List.any_eq_true]
    exact ⟨"圖".toList, by simp, hfig⟩
  · intro s hs
    rw [determine_caption_type] at hs
    by_cases hfig : (["圖".toList, "figure".toList, "fig.".toList, "圖片".toList,
        "圖像".toList].any (fun word => isSubstr word (pyLower s))) = true
    · rw [if_pos hfig] at hs
      exact absurd hs (by decide)
    · rw [if_neg hfig] at hs
      by_cases htab : (["表".toList, "table".toList, "tab.".toList,
          "表格".toList].any (fun word => isSubstr word (pyLower s))) = true
      · rw [if_pos htab] at hs
        exact absurd hs (by decide)
      · rw [if_neg htab] at hs
        by_cases hch : (["chart".toList, "圖表".toList].any
            (fun word => isSubstr word (pyLower s))) = true
        · rcases List.any_eq_true.mp hch with ⟨w, hw, hsub⟩
          simp only [List.mem_cons, List.not_mem_nil, or_false] at hw
          rcases hw with rfl | rfl
          · exact ⟨hsub, Bool.not_eq_true _ ▸ hfig, Bool.not_eq_true _ ▸ htab⟩
          · exfalso
            apply hfig
            rw [List.any_eq_true]
            exact ⟨"圖".toList, by simp, htu _ hsub⟩
        · rw [if_neg hch] at hs
          exact absurd hs (by decide)

/-- Witness for C10: `圖表 1：統計` is classified `figure`; `chart 1: data`
reaches the `chart` branch, contains `chart`, and no figure/table keyword. -/
theorem spec_c10_witness :
    (isSubstr "圖表".toList "圖表 1：統計".toList = true ∧
      determine_caption_type "圖表 1：統計".toList = "figure") ∧
    (determine_caption_type "chart 1: data".toList = "chart" ∧
      (isSubstr "chart".toList (pyLower "chart 1: data".toList) = true ∧
        (["圖".toList, "figure".toList, "fig.".toList, "圖片".toList,
          "圖像".toList].any
            (fun word => isSubstr word (pyLower "chart 1: data".toList))) = false ∧
        (["表".toList, "table".toList, "tab.".toList, "表格".toList].any
            (fun word => isSubstr word (pyLower "chart 1: data".toList))) = false)) :=
  ⟨⟨by decide, spec_c10.1 "圖表 1：統計".toList (by decide)⟩,
    ⟨by decide, spec_c10.2 "chart 1: data".toList (by decide)⟩⟩

/-- C9: the caption scorer always returns a value in `[0.3, 0.9]` and the
reference scorer a value in `[0.5, 0.9]`; every pair produced by the full
pipeline (identify, then find references, then pair) has
`pairing_confidence ≥ 0.3`; consequently at the default threshold `0.3` the
final `>=` filter of `process_pdf` removes nothing. -/
theorem spec_c9 :
    (∀ (block : TextBlock) (match_text : List Char),
      3/10 ≤ calculate_caption_confidence block match_text ∧
        calculate_caption_confidence block match_text ≤ 9/10) ∧
    (∀ (ref_text context : List Char),
      1/2 ≤ calculate_reference_confidence ref_text context ∧
        calculate_reference_confidence ref_text context ≤ 9/10) ∧
    (∀ (self : CaptionExtractor) (text_blocks : List TextBlock),
      ((unfiltered_pairs self text_blocks).all
        (fun p => decide (3/10 ≤ p.pairing_confidence))) = true) ∧
    (∀ text_blocks : List TextBlock,
      process_text_blocks defaultExtractor text_blocks =
        unfiltered_pairs defaultExtractor text_blocks) := by
  refine ⟨caption_confidence_bounds, reference_confidence_bounds, ?_, ?_⟩
  · intro self tbs
    rw [List.all_eq_true]
    intro p hp
    exact decide_eq_true (unfiltered_pairs_lower hp)
  · intro tbs
    show filter_pairs defaultExtractor.confidence_threshold
      (unfiltered_pairs defaultExtractor tbs) = unfiltered_pairs defaultExtractor tbs
    rw [filter_pairs]
    apply List.filter_eq_self.mpr
    intro p hp
    have h3 := unfiltered_pairs_lower hp
    have hth : defaultExtractor.confidence_threshold ≤ p.pairing_confidence := by
      have : defaultExtractor.confidence_threshold = 3/10 := by
        norm_num [defaultExtractor, CaptionExtractor.init]
      rw [this]
      exact h3
    exact decide_eq_true hth

/-- C1 counterexample: on `containment_block` with the single caption
`figure 1`, the only reference-pattern match combines to `1.2`; the known
identifier `"1"` is an element of the known set and a substring of `"1.2"`
(the symmetric direction of the claimed containment check), yet the line-267
test rejects it and `find_references` retains nothing — the claimed
"known in ref" direction is not implemented. -/
theorem spec_c1_counterexample :
    (reference_raw_matches defaultExtractor [containment_block]).map
        (fun r => r.reference_number) = ["1.2".toList] ∧
    "1".toList ∈ caption_numbers_of [containment_caption] ∧
    isSubstr "1".toList "1.2".toList = true ∧
    refAccept (caption_numbers_of [containment_caption]) "1.2".toList = false ∧
    find_references defaultExtractor [containment_block] [containment_caption] = [] := by
  refine ⟨by decide!, by decide!, by decide!, by decide!, by decide!⟩

/-- C1 (amended): a reference-pattern match is retained by `find_references`
iff its combined number passes the line-267 test, which is: the number is an
element of the known-identifier set, **or** the number is a substring of some
element of that set — one direction only; the "element is a substring of the
reference number" direction is not part of the test. -/
theorem spec_c1_amended :
    (∀ (self : CaptionExtractor) (text_blocks : List TextBlock)
        (captions : List CaptionCandidate),
      find_references self text_blocks captions =
        (reference_raw_matches self text_blocks).filter
          (fun m => refAccept (caption_numbers_of captions) m.reference_number)) ∧
    (∀ (caption_numbers : List (List Char)) (ref_number : List Char),
      refAccept caption_numbers ref_number = true ↔
        ref_number ∈ caption_numbers ∨
          ∃ num ∈ caption_numbers, isSubstr ref_number num = true) := by
  constructor
  · intro self tbs caps
    simp only [find_references, reference_raw_matches]
    rw [filter_flatMap]
    congr 1
    funext block
    rw [filter_flatMap]
    congr 1
    funext pattern
    rw [filterMap_guard (fun m => reference_of_match self block m)
      (fun m => refAccept (caption_numbers_of caps) (ref_number_of_match m)),
      List.filter_map]
    rfl
  · intro caption_numbers ref_number
    simp [refAccept, List.any_eq_true]

/-- C2 counterexample: on the Scenario-1 fragment the single surviving
candidate has confidence exactly `0.7` (base `0.5` + bold `0.2`; the matched
text `圖 1：測試圖片說明` has exactly 10 characters, so the `10 < len < 100`
length bonus does not fire), which is below the claimed `0.8`. -/
theorem spec_c2_counterexample :
    (identify_captions defaultExtractor [scenario1_block]).map
        (fun c => c.confidence) = [0.7] ∧
    ¬ ((0.8 : ℚ) ≤ 0.7) := by
  refine ⟨by decide!, by norm_num⟩

/-- C2 (amended): on the Scenario-1 fragment, `identify_captions` yields
exactly one candidate after deduplication, with type `figure`, number `"1"`,
title starting with (in fact equal to) `測試圖片說明`, page 1 — and
confidence exactly `0.7`, not `≥ 0.8`. -/
theorem spec_c2_amended :
    (identify_captions defaultExtractor [scenario1_block]).map
        (fun c => (c.caption_type, c.number,
          startsWithChars "測試圖片說明".toList c.text, c.page_number,
          c.confidence)) =
      [("figure", "1".toList, true, 1, 0.7)] := by
  decide!

/-- C7: `identify_captions` output is sorted by `(page_number, number)` with
the number compared lexicographically as a string; on a fragment with captions
`10` and `2` on the same page, `10` precedes `2`. -/
theorem spec_c7 :
    (∀ (self : CaptionExtractor) (text_blocks : List TextBlock),
      (identify_captions self text_blocks).Pairwise
        (fun a b => captionLe a b = true)) ∧
    strLe "10".toList "2".toList = true ∧
    (identify_captions defaultExtractor [lexsort_block]).map
        (fun c => (c.number, c.page_number)) =
      [("10".toList, 1), ("2".toList, 1)] := by
  refine ⟨?_, by decide, by decide!⟩
  intro self tbs
  simp only [identify_captions]
  exact pairwise_isortLe captionLe captionLe_total captionLe_trans _

/-- C3 counterexample: constructing the pipeline with confidence threshold `2`
(outside `[0,1]`) succeeds — the constructor stores the invalid value
verbatim — and the value is then used for processing (on the Scenario-1
fragment every pair is filtered out against threshold `2`), even though the
standalone validator classifies the same configuration as invalid. Nothing is
rejected at configuration time. -/
theorem spec_c3_counterexample :
    CaptionExtractor.init 200 5 2 =
      { context_window := 200, min_caption_length := 5,
        confidence_threshold := 2 } ∧
    (validate_processing_request invalid_request).1 = false ∧
    process_text_blocks (CaptionExtractor.init 200 5 2) [scenario1_block] = [] := by
  refine ⟨rfl, by decide!, by decide!⟩

/-- C3 (amended): the three configuration checks exist only in the standalone
`validate_processing_request` helper, which reports a request valid iff the
path is nonempty, the threshold lies in `[0,1]`, the context window is at
least 50 and the minimum caption length at least 1; pipeline construction
itself (`CaptionExtractor.__init__`) performs no validation and stores any
configuration verbatim. -/
theorem spec_c3_amended :
    (∀ request : ProcessingRequest,
      (validate_processing_request request).1 = true ↔
        (request.file_info.file_path.isEmpty = false ∧
          0 ≤ request.config.confidence_threshold ∧
          request.config.confidence_threshold ≤ 1 ∧
          50 ≤ request.config.context_window ∧
          1 ≤ request.config.min_caption_length)) ∧
    (∀ (cw ml : ℕ) (ct : ℚ), CaptionExtractor.init cw ml ct =
      { context_window := cw, min_caption_length := ml,
        confidence_threshold := ct }) := by
  constructor
  · intro req
    simp only [validate_processing_request]
    split_ifs with h1 h2 h3 h4 <;>
      simp_all [not_or, not_lt] <;>
      try omega
    intro h0
    rcases (by assumption : req.config.confidence_threshold < 0 ∨
        1 < req.config.confidence_threshold) with hx | hx
    · linarith
    · exact hx
  · intro cw ml ct
    rfl
